import Mathlib

/-!
Verification of the stale-aware configuration regeneration engine of
`nrdp-micro` (packages `db` and `nagios_config`), shallowly embedded from
the Go source.  Timestamps are modelled at second resolution as `Int`
(the store persists `time.Unix()` values and the spec fixes second
resolution); the stale threshold is modelled in whole seconds.
-/

namespace NrdpMicro

/-- A row of the `hosts` table (`db.Host` in the source): hostname and
last-seen Unix timestamp in seconds. -/
structure Host where
  hostname : String
  lastSeen : Int
  deriving DecidableEq, Repr

/-- A row of the `services` table (`db.Service` in the source). -/
structure Service where
  hostname : String
  serviceDescription : String
  lastSeen : Int
  deriving DecidableEq, Repr

/-- `Manager.UpdateHost`: `INSERT ... ON CONFLICT(hostname) DO UPDATE SET
last_seen = excluded.last_seen` — an unconditional last-write-wins upsert
keyed on hostname. -/
def updateHost (tbl : List Host) (hostname : String) (lastSeen : Int) : List Host :=
  if tbl.any (fun h => h.hostname == hostname) then
    tbl.map (fun h => if h.hostname == hostname then { h with lastSeen := lastSeen } else h)
  else
    tbl ++ [⟨hostname, lastSeen⟩]

/-- Lookup of the stored `last_seen` for a hostname (a `SELECT` by primary
key against the `hosts` table). -/
def lookupHost (tbl : List Host) (hostname : String) : Option Int :=
  (tbl.find? (fun h => h.hostname == hostname)).map (·.lastSeen)

/-- `Manager.DeleteStaleHosts`: `DELETE FROM hosts WHERE last_seen < ?`;
returns the surviving table and the number of rows removed. -/
def deleteStaleHosts (tbl : List Host) (cutoff : Int) : List Host × Nat :=
  (tbl.filter (fun h => !decide (h.lastSeen < cutoff)),
   (tbl.filter (fun h => decide (h.lastSeen < cutoff))).length)

/-- `Manager.DeleteStaleServices`: `DELETE FROM services WHERE last_seen < ?`. -/
def deleteStaleServices (tbl : List Service) (cutoff : Int) : List Service × Nat :=
  (tbl.filter (fun s => !decide (s.lastSeen < cutoff)),
   (tbl.filter (fun s => decide (s.lastSeen < cutoff))).length)

/-- `Manager.GetAllHosts`: `SELECT hostname, last_seen FROM hosts ORDER BY
hostname`.  The `ORDER BY` is modelled by sorting on the hostname key. -/
def getAllHosts (tbl : List Host) : List Host :=
  List.insertionSort (fun a b => a.hostname ≤ b.hostname) tbl

/-- `Manager.GetAllServices`: `SELECT ... FROM services ORDER BY hostname,
service_description`. -/
def getAllServices (tbl : List Service) : List Service :=
  List.insertionSort
    (fun a b =>
      a.hostname < b.hostname ∨
        (a.hostname = b.hostname ∧ a.serviceDescription ≤ b.serviceDescription))
    tbl

/-- The generator's template parameters: `config.NagiosConfig.HostTemplate`
and `ServiceTemplate`, and `Generator.staleThreshold` in whole seconds
(the code prints `int(g.staleThreshold.Seconds())`). -/
structure Params where
  hostTemplate : String
  serviceTemplate : String
  staleSecs : Nat
  deriving DecidableEq, Repr

/-- One block written to the output buffer by `Generator.generateConfigs`:
either a host definition or a service definition. -/
inductive ConfigItem where
  | hostDef (hostTemplate hostname : String)
  | serviceDef (serviceTemplate hostname desc : String) (freshness : Nat)
  deriving DecidableEq, Repr

/-- The lines of one host definition block, one list entry per
`buffer.WriteString` call in the source. -/
def hostLines (tpl name : String) : List String :=
  ["define host \x7b\n",
   "    use                 " ++ tpl ++ "\n",
   "    host_name           " ++ name ++ "\n",
   "    alias               " ++ name ++ "\n",
   "\x7d\n\n"]

/-- The lines of one service definition block, one list entry per
`buffer.WriteString` call in the source. -/
def serviceLines (tpl host desc : String) (freshness : Nat) : List String :=
  ["define service \x7b\n",
   "    use                     " ++ tpl ++ "\n",
   "    host_name               " ++ host ++ "\n",
   "    service_description     " ++ desc ++ "\n",
   "    check_command           check_dummy!0!OK\n",
   "    active_checks_enabled   0\n",
   "    passive_checks_enabled  1\n",
   "    check_freshness         1\n",
   "    freshness_threshold     " ++ toString freshness ++ "\n",
   "    notification_interval   0\n",
   "\x7d\n\n"]

/-- The text of one block. -/
def itemText : ConfigItem → String
  | .hostDef tpl name => String.join (hostLines tpl name)
  | .serviceDef tpl host desc f => String.join (serviceLines tpl host desc f)

/-- The `sort.Slice(hosts, ...)` call in `generateConfigs`: sort hosts by
hostname (hostnames are unique, the table's primary key, so stability is
irrelevant). -/
def sortHosts (hosts : List Host) : List Host :=
  List.insertionSort (fun a b => a.hostname ≤ b.hostname) hosts

/-- The `sort.Slice(hostServices, ...)` call: sort one host's services by
description. -/
def sortServicesByDesc (svcs : List Service) : List Service :=
  List.insertionSort (fun a b => a.serviceDescription ≤ b.serviceDescription) svcs

/-- The `servicesByHost` grouping: the services whose `Hostname` equals
`h`, in fetch order (the Go map groups by appending in slice order). -/
def servicesFor (svcs : List Service) (h : String) : List Service :=
  svcs.filter (fun s => s.hostname == h)

/-- The sequence of blocks written by the rendering loop of
`generateConfigs`: for each host in sorted order, one host definition,
followed by one service definition per service of that host in ascending
description order. -/
def renderItems (p : Params) (hosts : List Host) (svcs : List Service) : List ConfigItem :=
  (sortHosts hosts).flatMap (fun h =>
    ConfigItem.hostDef p.hostTemplate h.hostname ::
      (sortServicesByDesc (servicesFor svcs h.hostname)).map
        (fun s => ConfigItem.serviceDef p.serviceTemplate s.hostname s.serviceDescription
          p.staleSecs))

/-- The full rendered configuration text (`buffer.Bytes()` at the end of
the rendering loop). -/
def renderConfig (p : Params) (hosts : List Host) (svcs : List Service) : String :=
  String.join ((renderItems p hosts svcs).map itemText)

/-- The hostnames of the host definition blocks, in emission order. -/
def emittedHostnames (items : List ConfigItem) : List String :=
  items.filterMap (fun i =>
    match i with
    | .hostDef _ name => some name
    | _ => none)

/-- The (hostname, description) keys of the service definition blocks, in
emission order. -/
def emittedServiceKeys (items : List ConfigItem) : List (String × String) :=
  items.filterMap (fun i =>
    match i with
    | .serviceDef _ host desc _ => some (host, desc)
    | _ => none)

/-- Injected outcomes of the fallible external operations one cycle of
`Generator.generateConfigs` performs, in program order: the two `DELETE`
statements, the two `SELECT`s, the read of the published file (a
non-`ErrNotExist` error), the temp-file write, the rename, the temp-file
removal after a failed rename, and whether the reload channel has a ready
receiver. -/
structure Env where
  pruneHostsFails : Bool
  pruneServicesFails : Bool
  fetchHostsFails : Bool
  fetchServicesFails : Bool
  readFails : Bool
  writeTempFails : Bool
  renameFails : Bool
  removeTempFails : Bool
  notifyReady : Bool
  deriving DecidableEq, Repr

/-- The state a regeneration cycle reads and mutates: both ledger tables,
the published config file's content (`none` = file absent), and the
temporary sibling file's content. -/
structure CycleState where
  hostsTable : List Host
  servicesTable : List Service
  publishedFile : Option String
  tempFile : Option String
  deriving DecidableEq, Repr

/-- Where one `generateConfigs` cycle returned, matching the `return`
statements of the source: aborts at either fetch, the both-empty skip, the
identical-content skip, aborts at temp write or rename, or a successful
publish carrying whether the non-blocking reload send was received. -/
inductive CycleResult where
  | abortedFetchHosts
  | abortedFetchServices
  | skippedEmpty
  | skippedIdentical
  | abortedWrite
  | abortedRename
  | published (notified : Bool)
  deriving DecidableEq, Repr

/-- The hosts table after the pruning step: `DeleteStaleHosts(now −
staleThreshold)`; a failed `DELETE` leaves the table unchanged. -/
def prunedHostsTable (env : Env) (p : Params) (now : Int) (st : CycleState) : List Host :=
  if env.pruneHostsFails then st.hostsTable
  else (deleteStaleHosts st.hostsTable (now - (p.staleSecs : Int))).1

/-- The services table after the pruning step. -/
def prunedServicesTable (env : Env) (p : Params) (now : Int) (st : CycleState) : List Service :=
  if env.pruneServicesFails then st.servicesTable
  else (deleteStaleServices st.servicesTable (now - (p.staleSecs : Int))).1

/-- The state after the pruning step (`st` with both tables pruned; the
published and temp files untouched by pruning). -/
def prunedState (env : Env) (p : Params) (now : Int) (st : CycleState) : CycleState :=
  { st with
    hostsTable := prunedHostsTable env p now st
    servicesTable := prunedServicesTable env p now st }

/-- The `hosts` local of `generateConfigs`: the result of
`g.db.GetAllHosts()` after pruning. -/
def fetchedHosts (env : Env) (p : Params) (now : Int) (st : CycleState) : List Host :=
  getAllHosts (prunedHostsTable env p now st)

/-- The `services` local of `generateConfigs`: the result of
`g.db.GetAllServices()` after pruning. -/
def fetchedServices (env : Env) (p : Params) (now : Int) (st : CycleState) : List Service :=
  getAllServices (prunedServicesTable env p now st)

/-- The `newConfigContent` local of `generateConfigs`: the rendered bytes
for this cycle. -/
def newContent (env : Env) (p : Params) (now : Int) (st : CycleState) : String :=
  renderConfig p (fetchedHosts env p now st) (fetchedServices env p now st)

/-- The `existingConfigContent` local: the published file's bytes, where a
missing file or a read error yields empty bytes (`ioutil.ReadFile` returns
`nil` content on error and the code continues). -/
def existingContent (env : Env) (st : CycleState) : String :=
  if env.readFails then "" else st.publishedFile.getD ""

/-- One cycle of `Generator.generateConfigs`, step for step from the
source: prune both tables (failures logged, not fatal), fetch hosts then
services (either failure returns), skip when both lists are empty, render,
read the published file (absent or unreadable file compares as empty
bytes), skip when the rendered bytes equal the existing bytes, write the
temp file, rename it onto the final path (on rename failure remove the
temp file best-effort and return), then send the non-blocking reload
signal. -/
def generateConfigs (env : Env) (p : Params) (now : Int) (st : CycleState) :
    CycleState × CycleResult :=
  if env.fetchHostsFails then (prunedState env p now st, .abortedFetchHosts)
  else if env.fetchServicesFails then (prunedState env p now st, .abortedFetchServices)
  else if (fetchedHosts env p now st).length = 0 ∧ (fetchedServices env p now st).length = 0 then
    (prunedState env p now st, .skippedEmpty)
  else if newContent env p now st = existingContent env st then
    (prunedState env p now st, .skippedIdentical)
  else if env.writeTempFails then (prunedState env p now st, .abortedWrite)
  else if env.renameFails then
    (if env.removeTempFails then
      { prunedState env p now st with tempFile := some (newContent env p now st) }
     else { prunedState env p now st with tempFile := none },
     .abortedRename)
  else
    ({ prunedState env p now st with
        publishedFile := some (newContent env p now st), tempFile := none },
     .published env.notifyReady)

/-- An environment in which every external operation succeeds; `b` says
whether the reload channel's receiver is ready. -/
def envOk (b : Bool) : Env :=
  ⟨false, false, false, false, false, false, false, false, b⟩

/-! ### Lemmas about the ledger-store operations -/

lemma lookupHost_map_set (tbl : List Host) (k : String) (t : Int)
    (hex : tbl.any (fun h => h.hostname == k) = true) :
    lookupHost
        (tbl.map (fun h => if h.hostname == k then { h with lastSeen := t } else h)) k
      = some t := by
  induction tbl with
  | nil => simp at hex
  | cons h rest ih =>
    simp only [List.any_cons, Bool.or_eq_true] at hex
    by_cases hk : (h.hostname == k) = true
    · simp only [List.map_cons, if_pos hk]
      unfold lookupHost
      rw [List.find?_cons_of_pos _ (by simpa using hk)]
      rfl
    · have hex' : (rest.any fun h => h.hostname == k) = true := hex.resolve_left hk
      simp only [List.map_cons, if_neg hk]
      unfold lookupHost at ih ⊢
      rw [List.find?_cons_of_neg _ (by simpa using hk)]
      exact ih hex'

lemma any_key_updateHost (tbl : List Host) (k : String) (t : Int) :
    (updateHost tbl k t).any (fun h => h.hostname == k) = true := by
  unfold updateHost
  split
  · rename_i hany
    rw [List.any_eq_true] at hany ⊢
    obtain ⟨x, hx, hpx⟩ := hany
    exact ⟨if x.hostname == k then { x with lastSeen := t } else x,
      List.mem_map_of_mem _ hx, by simp [hpx]⟩
  · simp

lemma lookupHost_updateHost (tbl : List Host) (k : String) (t : Int) :
    lookupHost (updateHost tbl k t) k = some t := by
  unfold updateHost
  split
  · rename_i hany
    exact lookupHost_map_set tbl k t hany
  · rename_i hany
    have hall : tbl.find? (fun h => h.hostname == k) = none := by
      rw [List.find?_eq_none]
      intro x hx hpx
      exact hany (List.any_eq_true.mpr ⟨x, hx, hpx⟩)
    simp [lookupHost, hall]

/-! ### Lemmas about the cycle's state bookkeeping -/

lemma generateConfigs_hostsTable (env : Env) (p : Params) (now : Int) (st : CycleState) :
    (generateConfigs env p now st).1.hostsTable = prunedHostsTable env p now st := by
  unfold generateConfigs
  repeat first
    | rfl
    | split

lemma generateConfigs_servicesTable (env : Env) (p : Params) (now : Int) (st : CycleState) :
    (generateConfigs env p now st).1.servicesTable = prunedServicesTable env p now st := by
  unfold generateConfigs
  repeat first
    | rfl
    | split

lemma deleteStaleHosts_idem (t : List Host) (c : Int) :
    (deleteStaleHosts (deleteStaleHosts t c).1 c).1 = (deleteStaleHosts t c).1 := by
  simp [deleteStaleHosts, List.filter_filter]

lemma deleteStaleServices_idem (t : List Service) (c : Int) :
    (deleteStaleServices (deleteStaleServices t c).1 c).1 = (deleteStaleServices t c).1 := by
  simp [deleteStaleServices, List.filter_filter]

lemma prunedHostsTable_idem (env : Env) (p : Params) (now : Int) (st st₁ : CycleState)
    (h : st₁.hostsTable = prunedHostsTable env p now st) :
    prunedHostsTable env p now st₁ = prunedHostsTable env p now st := by
  unfold prunedHostsTable at *
  by_cases hf : env.pruneHostsFails = true
  · simpa [hf] using h
  · simp only [Bool.not_eq_true] at hf
    simp only [hf, Bool.false_eq_true, if_false] at h ⊢
    rw [h, deleteStaleHosts_idem]

lemma prunedServicesTable_idem (env : Env) (p : Params) (now : Int) (st st₁ : CycleState)
    (h : st₁.servicesTable = prunedServicesTable env p now st) :
    prunedServicesTable env p now st₁ = prunedServicesTable env p now st := by
  unfold prunedServicesTable at *
  by_cases hf : env.pruneServicesFails = true
  · simpa [hf] using h
  · simp only [Bool.not_eq_true] at hf
    simp only [hf, Bool.false_eq_true, if_false] at h ⊢
    rw [h, deleteStaleServices_idem]

lemma prunedState_stable (env : Env) (p : Params) (now : Int) (st₁ : CycleState)
    (h1 : st₁.hostsTable = prunedHostsTable env p now st₁)
    (h2 : st₁.servicesTable = prunedServicesTable env p now st₁) :
    prunedState env p now st₁ = st₁ := by
  unfold prunedState
  rw [← h1, ← h2]

/-! ### Concrete sample data used by the witnesses -/

/-- Sample template parameters (`stale_threshold` of 60 seconds). -/
def pW : Params := ⟨"linux-server", "generic-service", 60⟩

/-- Sample hosts table: two fresh hosts and one stale host. -/
def hostsW : List Host := [⟨"b", 100⟩, ⟨"a", 100⟩, ⟨"x", 10⟩]

/-- Sample services table, including a service for untracked host
`orph`. -/
def svcsW : List Service :=
  [⟨"b", "HTTP", 100⟩, ⟨"a", "Z", 100⟩, ⟨"a", "A", 100⟩, ⟨"orph", "S", 100⟩]

/-- Sample initial cycle state with no published file. -/
def stW : CycleState := ⟨hostsW, svcsW, none, none⟩

/-- Minimal sample state: one fresh host with one service, no published
file. -/
def stW1 : CycleState := ⟨[⟨"web1", 100⟩], [⟨"web1", "HTTP", 100⟩], none, none⟩

/-- Sample state whose records are all stale at `now = 100` and whose
published file holds earlier content. -/
def stStaleW : CycleState :=
  ⟨[⟨"old", 10⟩], [⟨"old", "S", 10⟩], some "previous content", none⟩

/-- Sample state with a stale host but a fresh (orphan) service, and a
non-empty published file. -/
def stOrphW : CycleState :=
  ⟨[⟨"old", 10⟩], [⟨"a", "S", 100⟩], some "previous content", none⟩

/-- Environment where only the host fetch fails. -/
def envFetchHostsFailW : Env :=
  ⟨false, false, true, false, false, false, false, false, false⟩

/-- Environment where only the rename onto the final path fails (the
best-effort temp removal succeeds). -/
def envRenameFailW : Env :=
  ⟨false, false, false, false, false, false, true, false, false⟩

/-- Claim C8: `UpdateHost` is an unconditional last-write-wins upsert: after an
upsert with timestamp `t₁` the stored value is `t₁`, and a later upsert
carrying the earlier timestamp `t₂ < t₁` still overwrites, leaving `t₂` —
an out-of-order ingestion event moves `last_seen` backward. -/
theorem updateHost_last_write_wins (tbl : List Host) (k : String) (t₁ t₂ : Int)
    (_hlt : t₂ < t₁) :
    lookupHost (updateHost tbl k t₁) k = some t₁ ∧
    lookupHost (updateHost (updateHost tbl k t₁) k t₂) k = some t₂ :=
  ⟨lookupHost_updateHost tbl k t₁, lookupHost_updateHost (updateHost tbl k t₁) k t₂⟩

/-- Witness for C8 at a concrete table and timestamps. -/
theorem updateHost_last_write_wins_witness :
    lookupHost (updateHost [Host.mk "db1" 10] "web1" 50) "web1" = some 50 ∧
    lookupHost (updateHost (updateHost [Host.mk "db1" 10] "web1" 50) "web1" 20) "web1"
      = some 20 :=
  updateHost_last_write_wins [Host.mk "db1" 10] "web1" 50 20 (by decide)

/-- Claim C5: the stale-deletion operations remove exactly the rows with
`last_seen < cutoff` (a row survives iff it was present and its
`last_seen` is at or after the cutoff), the returned count is exactly the
number of removed rows, and a cycle prunes both tables at
`cutoff = now − staleThreshold`. -/
theorem deleteStale_exact (cutoff : Int) (hostsT : List Host) (svcsT : List Service)
    (h : Host) (s : Service) (env : Env) (p : Params) (now : Int) (st : CycleState)
    (hp : env.pruneHostsFails = false) (hq : env.pruneServicesFails = false) :
    (h ∈ (deleteStaleHosts hostsT cutoff).1 ↔ h ∈ hostsT ∧ cutoff ≤ h.lastSeen) ∧
    hostsT.length
      = (deleteStaleHosts hostsT cutoff).1.length + (deleteStaleHosts hostsT cutoff).2 ∧
    (s ∈ (deleteStaleServices svcsT cutoff).1 ↔ s ∈ svcsT ∧ cutoff ≤ s.lastSeen) ∧
    svcsT.length
      = (deleteStaleServices svcsT cutoff).1.length + (deleteStaleServices svcsT cutoff).2 ∧
    (generateConfigs env p now st).1.hostsTable
      = (deleteStaleHosts st.hostsTable (now - (p.staleSecs : Int))).1 ∧
    (generateConfigs env p now st).1.servicesTable
      = (deleteStaleServices st.servicesTable (now - (p.staleSecs : Int))).1 := by
  refine ⟨?_, ?_, ?_, ?_, ?_, ?_⟩
  · simp [deleteStaleHosts, List.mem_filter, not_lt]
  · have := @List.length_eq_length_filter_add _ hostsT (fun x => !decide (x.lastSeen < cutoff))
    simpa [deleteStaleHosts] using this
  · simp [deleteStaleServices, List.mem_filter, not_lt]
  · have := @List.length_eq_length_filter_add _ svcsT (fun x => !decide (x.lastSeen < cutoff))
    simpa [deleteStaleServices] using this
  · rw [generateConfigs_hostsTable]
    simp [prunedHostsTable, hp]
  · rw [generateConfigs_servicesTable]
    simp [prunedServicesTable, hq]

/-- Witness for C5 at a concrete cutoff, tables and cycle. -/
theorem deleteStale_exact_witness :
    (Host.mk "b" 100 ∈ (deleteStaleHosts hostsW 40).1 ↔
      Host.mk "b" 100 ∈ hostsW ∧ (40 : Int) ≤ (Host.mk "b" 100).lastSeen) ∧
    hostsW.length
      = (deleteStaleHosts hostsW 40).1.length + (deleteStaleHosts hostsW 40).2 ∧
    (Service.mk "orph" "S" 100 ∈ (deleteStaleServices svcsW 40).1 ↔
      Service.mk "orph" "S" 100 ∈ svcsW ∧ (40 : Int) ≤ (Service.mk "orph" "S" 100).lastSeen) ∧
    svcsW.length
      = (deleteStaleServices svcsW 40).1.length + (deleteStaleServices svcsW 40).2 ∧
    (generateConfigs (envOk true) pW 100 stW).1.hostsTable
      = (deleteStaleHosts stW.hostsTable (100 - (pW.staleSecs : Int))).1 ∧
    (generateConfigs (envOk true) pW 100 stW).1.servicesTable
      = (deleteStaleServices stW.servicesTable (100 - (pW.staleSecs : Int))).1 :=
  deleteStale_exact 40 hostsW svcsW (Host.mk "b" 100) (Service.mk "orph" "S" 100)
    (envOk true) pW 100 stW rfl rfl

/-- Claim C1: with the ledger snapshot unchanged between two cycles that run
without external failures (and whose fetch is not both-empty), the second
cycle renders byte-identical output, and returns at the comparison step
with no file write and no reload notification: its result is
`skippedIdentical` and its final state equals the first cycle's final
state (the published file in particular is untouched). -/
theorem renderCompare_idempotent (b : Bool) (p : Params) (now : Int) (st : CycleState)
    (hne : ¬((fetchedHosts (envOk b) p now st).length = 0 ∧
             (fetchedServices (envOk b) p now st).length = 0)) :
    newContent (envOk b) p now (generateConfigs (envOk b) p now st).1
      = newContent (envOk b) p now st ∧
    generateConfigs (envOk b) p now (generateConfigs (envOk b) p now st).1
      = ((generateConfigs (envOk b) p now st).1, .skippedIdentical) := by
  have e1 : (envOk b).fetchHostsFails = false := rfl
  have e2 : (envOk b).fetchServicesFails = false := rfl
  have e3 : (envOk b).writeTempFails = false := rfl
  have e4 : (envOk b).renameFails = false := rfl
  have e6 : (envOk b).notifyReady = b := rfl
  have hne' : ¬(fetchedHosts (envOk b) p now st = [] ∧
      fetchedServices (envOk b) p now st = []) := by
    simpa using hne
  by_cases hdiff : newContent (envOk b) p now st = existingContent (envOk b) st
  · have hfst : generateConfigs (envOk b) p now st
        = (prunedState (envOk b) p now st, .skippedIdentical) := by
      unfold generateConfigs
      simp [e1, e2, e3, e4, e6, hne', hdiff]
    rw [hfst]
    have h1 : (prunedState (envOk b) p now st).hostsTable
        = prunedHostsTable (envOk b) p now st := rfl
    have h2 : (prunedState (envOk b) p now st).servicesTable
        = prunedServicesTable (envOk b) p now st := rfl
    have hH2 := prunedHostsTable_idem (envOk b) p now st _ h1
    have hS2 := prunedServicesTable_idem (envOk b) p now st _ h2
    have hfeq : fetchedHosts (envOk b) p now (prunedState (envOk b) p now st)
        = fetchedHosts (envOk b) p now st := by
      unfold fetchedHosts; rw [hH2]
    have hseq : fetchedServices (envOk b) p now (prunedState (envOk b) p now st)
        = fetchedServices (envOk b) p now st := by
      unfold fetchedServices; rw [hS2]
    have hnc : newContent (envOk b) p now (prunedState (envOk b) p now st)
        = newContent (envOk b) p now st := by
      unfold newContent; rw [hfeq, hseq]
    refine ⟨hnc, ?_⟩
    have hex : existingContent (envOk b) (prunedState (envOk b) p now st)
        = existingContent (envOk b) st := rfl
    unfold generateConfigs
    rw [hnc, hex]
    simp [e1, e2, hfeq, hseq, hne', hdiff,
      prunedState_stable (envOk b) p now _ (h1.trans hH2.symm) (h2.trans hS2.symm)]
  · have hfst : generateConfigs (envOk b) p now st
        = ({ prunedState (envOk b) p now st with
              publishedFile := some (newContent (envOk b) p now st), tempFile := none },
           .published b) := by
      unfold generateConfigs
      simp [e1, e2, e3, e4, e6, hne', hdiff]
    rw [hfst]
    set st₁ : CycleState :=
      { prunedState (envOk b) p now st with
        publishedFile := some (newContent (envOk b) p now st), tempFile := none } with hst₁
    have h1 : st₁.hostsTable = prunedHostsTable (envOk b) p now st := rfl
    have h2 : st₁.servicesTable = prunedServicesTable (envOk b) p now st := rfl
    have hH2 := prunedHostsTable_idem (envOk b) p now st st₁ h1
    have hS2 := prunedServicesTable_idem (envOk b) p now st st₁ h2
    have hfeq : fetchedHosts (envOk b) p now st₁ = fetchedHosts (envOk b) p now st := by
      unfold fetchedHosts; rw [hH2]
    have hseq : fetchedServices (envOk b) p now st₁ = fetchedServices (envOk b) p now st := by
      unfold fetchedServices; rw [hS2]
    have hnc : newContent (envOk b) p now st₁ = newContent (envOk b) p now st := by
      unfold newContent; rw [hfeq, hseq]
    refine ⟨hnc, ?_⟩
    have hex : existingContent (envOk b) st₁ = newContent (envOk b) p now st := rfl
    unfold generateConfigs
    rw [hnc, hex]
    simp [e1, e2, hfeq, hseq, hne',
      prunedState_stable (envOk b) p now st₁ (h1.trans hH2.symm) (h2.trans hS2.symm)]

/-- Witness for C1 at a concrete snapshot. -/
theorem renderCompare_idempotent_witness :
    newContent (envOk true) pW 100 (generateConfigs (envOk true) pW 100 stW1).1
      = newContent (envOk true) pW 100 stW1 ∧
    generateConfigs (envOk true) pW 100 (generateConfigs (envOk true) pW 100 stW1).1
      = ((generateConfigs (envOk true) pW 100 stW1).1, .skippedIdentical) :=
  renderCompare_idempotent true pW 100 stW1 (by decide)

/-- Claim C2: a cycle that reaches the publishing step (fetches succeed,
the snapshot is not both-empty, the rendered bytes differ from the
published bytes, and the temp write succeeds) whose rename fails aborts
with `abortedRename`; the temp file is removed when the best-effort
removal succeeds and still holds the rendered bytes when it fails, and
the final state keeps `publishedFile` exactly as before the cycle
(`prunedState` only changes the two ledger tables), so the previously
published content stays authoritative. -/
theorem publish_renameFailure_cleanup (env : Env) (p : Params) (now : Int) (st : CycleState)
    (hf1 : env.fetchHostsFails = false) (hf2 : env.fetchServicesFails = false)
    (hne : ¬((fetchedHosts env p now st).length = 0 ∧ (fetchedServices env p now st).length = 0))
    (hdiff : newContent env p now st ≠ existingContent env st)
    (hw : env.writeTempFails = false) (hr : env.renameFails = true) :
    generateConfigs env p now st =
      ({ prunedState env p now st with
          tempFile := if env.removeTempFails then some (newContent env p now st) else none },
       .abortedRename) := by
  unfold generateConfigs
  simp only [hf1, hf2, hw, hr, Bool.false_eq_true, if_false, if_neg hne, if_neg hdiff, if_true]
  split <;> rfl

/-- Witness for C2 at a concrete cycle whose rename fails. -/
theorem publish_renameFailure_cleanup_witness :
    generateConfigs envRenameFailW pW 100 stW1 =
      ({ prunedState envRenameFailW pW 100 stW1 with
          tempFile := if envRenameFailW.removeTempFails then
            some (newContent envRenameFailW pW 100 stW1) else none },
       .abortedRename) :=
  publish_renameFailure_cleanup envRenameFailW pW 100 stW1 rfl rfl (by decide) (by decide)
    rfl rfl

/-- Counterexample to claim C6 as stated: in a cycle where only the host
fetch fails (the service fetch would succeed), the cycle nevertheless
aborts at the fetching step — the failure is not treated as an empty
result, and aborting does not require both fetches to fail. -/
theorem singleFetchFailure_aborts_counterexample :
    envFetchHostsFailW.fetchServicesFails = false ∧
    generateConfigs envFetchHostsFailW pW 100 stW
      = (prunedState envFetchHostsFailW pW 100 stW, .abortedFetchHosts) := by
  constructor
  · rfl
  · rfl

/-- Claim C6 (amended): a failure of either the host fetch or the service
fetch aborts the cycle at the fetching step: nothing further runs, the
state keeps both files untouched (only the tables were pruned), and the
result names whichever fetch failed first. -/
theorem fetchFailure_aborts_cycle (env : Env) (p : Params) (now : Int) (st : CycleState)
    (hf : env.fetchHostsFails = true ∨ env.fetchServicesFails = true) :
    generateConfigs env p now st =
      (prunedState env p now st,
       if env.fetchHostsFails then .abortedFetchHosts else .abortedFetchServices) := by
  rcases hf with hf | hf
  · simp [generateConfigs, hf]
  · by_cases h2 : env.fetchHostsFails = true
    · simp [generateConfigs, h2]
    · simp [generateConfigs, hf, h2]

/-- Witness for amended C6 at a concrete cycle. -/
theorem fetchFailure_aborts_cycle_witness :
    generateConfigs envFetchHostsFailW pW 100 stW =
      (prunedState envFetchHostsFailW pW 100 stW,
       if envFetchHostsFailW.fetchHostsFails then .abortedFetchHosts
       else .abortedFetchServices) :=
  fetchFailure_aborts_cycle envFetchHostsFailW pW 100 stW (Or.inl rfl)

/-- Claim C7: when both fetches succeed and both return empty lists, the
cycle returns at the both-empty guard: the result is `skippedEmpty` and
the final state is the pruned state, whose `publishedFile` and `tempFile`
are exactly the incoming ones — the published file is neither rewritten
nor deleted. -/
theorem bothEmpty_skipsWrite (env : Env) (p : Params) (now : Int) (st : CycleState)
    (hf1 : env.fetchHostsFails = false) (hf2 : env.fetchServicesFails = false)
    (hH : fetchedHosts env p now st = []) (hS : fetchedServices env p now st = []) :
    generateConfigs env p now st = (prunedState env p now st, .skippedEmpty) := by
  unfold generateConfigs
  simp [hf1, hf2, hH, hS]

/-- Witness for C7: all records stale, published file present and kept. -/
theorem bothEmpty_skipsWrite_witness :
    generateConfigs (envOk true) pW 100 stStaleW
      = (prunedState (envOk true) pW 100 stStaleW, .skippedEmpty) :=
  bothEmpty_skipsWrite (envOk true) pW 100 stStaleW rfl rfl (by decide) (by decide)

/-- Claim C10: a cycle whose host fetch is empty but whose service fetch
is not passes the both-empty guard and renders the empty string; if the
published file is missing or empty the cycle ends at the comparison step
with no write, while a non-empty published file is overwritten with an
empty file and the reload notification is attempted. -/
theorem emptyHosts_orphanServices_render (b : Bool) (p : Params) (now : Int) (st : CycleState)
    (hH : fetchedHosts (envOk b) p now st = [])
    (hS : fetchedServices (envOk b) p now st ≠ []) :
    newContent (envOk b) p now st = "" ∧
    generateConfigs (envOk b) p now st =
      (if st.publishedFile.getD "" = "" then
        (prunedState (envOk b) p now st, .skippedIdentical)
       else
        ({ prunedState (envOk b) p now st with publishedFile := some "", tempFile := none },
         .published b)) := by
  have e1 : (envOk b).fetchHostsFails = false := rfl
  have e2 : (envOk b).fetchServicesFails = false := rfl
  have e3 : (envOk b).writeTempFails = false := rfl
  have e4 : (envOk b).renameFails = false := rfl
  have e6 : (envOk b).notifyReady = b := rfl
  have hnc : newContent (envOk b) p now st = "" := by
    unfold newContent
    rw [hH]
    rfl
  refine ⟨hnc, ?_⟩
  have hex : existingContent (envOk b) st = st.publishedFile.getD "" := rfl
  unfold generateConfigs
  by_cases hc : st.publishedFile.getD "" = ""
  · rw [if_pos hc]
    simp [e1, e2, hH, hS, hnc, hex, hc]
  · rw [if_neg hc]
    simp [e1, e2, e3, e4, e6, hH, hS, hnc, hex, Ne.symm hc]

/-- Witness for C10: a stale host, a live orphan service, and a non-empty
published file that gets replaced by an empty one. -/
theorem emptyHosts_orphanServices_render_witness :
    newContent (envOk true) pW 100 stOrphW = "" ∧
    generateConfigs (envOk true) pW 100 stOrphW =
      (if stOrphW.publishedFile.getD "" = "" then
        (prunedState (envOk true) pW 100 stOrphW, .skippedIdentical)
       else
        ({ prunedState (envOk true) pW 100 stOrphW with
            publishedFile := some "", tempFile := none },
         .published true)) :=
  emptyHosts_orphanServices_render true pW 100 stOrphW (by decide) (by decide)


/-- The primary key of a `services` row: (hostname, service_description). -/
def svcKey (s : Service) : String × String := (s.hostname, s.serviceDescription)

/-- The keys of the service blocks emitted under host `hn`, in emission
order. -/
def svcBlockKeys (svcs : List Service) (hn : String) : List (String × String) :=
  (sortServicesByDesc (servicesFor svcs hn)).map svcKey

lemma emittedHostnames_block (p : Params) (svcs : List Service) (h : Host) :
    emittedHostnames
      (ConfigItem.hostDef p.hostTemplate h.hostname ::
        (sortServicesByDesc (servicesFor svcs h.hostname)).map
          (fun s => ConfigItem.serviceDef p.serviceTemplate s.hostname s.serviceDescription
            p.staleSecs)) = [h.hostname] := by
  simp [emittedHostnames, List.filterMap_cons, List.filterMap_map, Function.comp]

lemma emittedServiceKeys_block (p : Params) (svcs : List Service) (h : Host) :
    emittedServiceKeys
      (ConfigItem.hostDef p.hostTemplate h.hostname ::
        (sortServicesByDesc (servicesFor svcs h.hostname)).map
          (fun s => ConfigItem.serviceDef p.serviceTemplate s.hostname s.serviceDescription
            p.staleSecs)) = svcBlockKeys svcs h.hostname := by
  simp only [emittedServiceKeys, svcBlockKeys, List.filterMap_cons, List.filterMap_map]
  exact congrFun (List.filterMap_eq_map svcKey) _

lemma emittedHostnames_renderItems (p : Params) (hosts : List Host) (svcs : List Service) :
    emittedHostnames (renderItems p hosts svcs) = (sortHosts hosts).map Host.hostname := by
  unfold renderItems
  generalize sortHosts hosts = l
  induction l with
  | nil => rfl
  | cons h t ih =>
    rw [List.flatMap_cons, emittedHostnames, List.filterMap_append]
    rw [show List.filterMap _ (ConfigItem.hostDef p.hostTemplate h.hostname ::
      (sortServicesByDesc (servicesFor svcs h.hostname)).map
        (fun s => ConfigItem.serviceDef p.serviceTemplate s.hostname s.serviceDescription
          p.staleSecs)) = [h.hostname] from emittedHostnames_block p svcs h]
    rw [show List.filterMap _ (t.flatMap _) = List.map Host.hostname t from ih]
    rfl

lemma emittedServiceKeys_renderItems (p : Params) (hosts : List Host) (svcs : List Service) :
    emittedServiceKeys (renderItems p hosts svcs)
      = (sortHosts hosts).flatMap (fun h => svcBlockKeys svcs h.hostname) := by
  unfold renderItems
  generalize sortHosts hosts = l
  induction l with
  | nil => rfl
  | cons h t ih =>
    rw [List.flatMap_cons, emittedServiceKeys, List.filterMap_append]
    rw [show List.filterMap _ (ConfigItem.hostDef p.hostTemplate h.hostname ::
      (sortServicesByDesc (servicesFor svcs h.hostname)).map
        (fun s => ConfigItem.serviceDef p.serviceTemplate s.hostname s.serviceDescription
          p.staleSecs)) = svcBlockKeys svcs h.hostname from emittedServiceKeys_block p svcs h]
    rw [show List.filterMap _ (t.flatMap _)
      = t.flatMap (fun h => svcBlockKeys svcs h.hostname) from ih]
    rw [List.flatMap_cons]

instance : IsTotal Host (fun a b => a.hostname ≤ b.hostname) :=
  ⟨fun _ _ => le_total _ _⟩

instance : IsTrans Host (fun a b => a.hostname ≤ b.hostname) :=
  ⟨fun _ _ _ => le_trans⟩

instance : IsTotal Service (fun a b => a.serviceDescription ≤ b.serviceDescription) :=
  ⟨fun _ _ => le_total _ _⟩

instance : IsTrans Service (fun a b => a.serviceDescription ≤ b.serviceDescription) :=
  ⟨fun _ _ _ => le_trans⟩

lemma mem_svcBlockKeys_fst (svcs : List Service) (hn : String) (k : String × String)
    (hk : k ∈ svcBlockKeys svcs hn) : k.1 = hn := by
  unfold svcBlockKeys at hk
  obtain ⟨s, hs, hks⟩ := List.mem_map.mp hk
  have hs' : s ∈ servicesFor svcs hn := by
    simpa [sortServicesByDesc] using hs
  have hmem := (List.mem_filter.mp hs').2
  rw [← hks]
  simpa [svcKey] using hmem

lemma filter_svcBlockKeys (svcs : List Service) (hn q : String) :
    (svcBlockKeys svcs hn).filter (fun k => k.1 == q)
      = if hn = q then svcBlockKeys svcs hn else [] := by
  by_cases hq : hn = q
  · rw [if_pos hq, List.filter_eq_self]
    intro k hk
    simp [mem_svcBlockKeys_fst svcs hn k hk, hq]
  · rw [if_neg hq, List.filter_eq_nil_iff]
    intro k hk
    simp [mem_svcBlockKeys_fst svcs hn k hk, hq]

lemma sorted_svcBlockKeys_snd (svcs : List Service) (hn : String) :
    List.Sorted (· ≤ ·) ((svcBlockKeys svcs hn).map Prod.snd) := by
  unfold svcBlockKeys
  rw [List.map_map]
  have hsorted : List.Sorted (fun a b : Service => a.serviceDescription ≤ b.serviceDescription)
      (sortServicesByDesc (servicesFor svcs hn)) :=
    List.sorted_insertionSort _ _
  exact List.pairwise_map.mpr (hsorted.imp (fun hab => hab))

lemma filter_flatMap_list {α β : Type} (l : List α) (g : α → List β) (q : β → Bool) :
    (l.flatMap g).filter q = l.flatMap (fun a => (g a).filter q) := by
  induction l with
  | nil => rfl
  | cons a t ih => simp [List.flatMap_cons, List.filter_append, ih]

lemma sorted_flatMap_single (svcs : List Service) (q : String) (l : List Host)
    (nd : (l.map Host.hostname).Nodup) :
    List.Sorted (· ≤ ·)
      ((l.flatMap (fun h => (svcBlockKeys svcs h.hostname).filter (fun k => k.1 == q))).map
        Prod.snd) := by
  induction l with
  | nil => simp [List.Sorted]
  | cons h t ih =>
    simp only [List.map_cons, List.nodup_cons] at nd
    rw [List.flatMap_cons, filter_svcBlockKeys]
    by_cases hq : h.hostname = q
    · rw [if_pos hq]
      have hrest : t.flatMap
          (fun h => (svcBlockKeys svcs h.hostname).filter (fun k => k.1 == q)) = [] := by
        rw [List.flatMap_eq_nil_iff]
        intro x hx
        rw [filter_svcBlockKeys, if_neg]
        intro hxq
        exact nd.1 (by
          rw [hq, ← hxq]
          exact List.mem_map_of_mem Host.hostname hx)
      rw [hrest, List.append_nil]
      exact sorted_svcBlockKeys_snd svcs h.hostname
    · rw [if_neg hq, List.nil_append]
      exact ih nd.2

lemma nodup_svcBlockKeys (svcs : List Service) (hn : String)
    (hs : (svcs.map svcKey).Nodup) : (svcBlockKeys svcs hn).Nodup := by
  unfold svcBlockKeys
  have hperm : List.Perm ((sortServicesByDesc (servicesFor svcs hn)).map svcKey)
      ((servicesFor svcs hn).map svcKey) :=
    (List.perm_insertionSort _ _).map svcKey
  rw [hperm.nodup_iff]
  exact hs.sublist ((List.filter_sublist svcs).map svcKey)



/-- Claim C3: when the two tables carry their primary-key uniqueness
(hostnames unique; (hostname, description) pairs unique), a render emits
host blocks in non-decreasing lexicographic hostname order with no
hostname twice, the service blocks under any one hostname `q` in
non-decreasing description order, and no service key twice. -/
theorem renderOrdering_nodup (p : Params) (hosts : List Host) (svcs : List Service)
    (q : String)
    (hh : (hosts.map Host.hostname).Nodup)
    (hs : (svcs.map svcKey).Nodup) :
    List.Sorted (· ≤ ·) (emittedHostnames (renderItems p hosts svcs)) ∧
    (emittedHostnames (renderItems p hosts svcs)).Nodup ∧
    List.Sorted (· ≤ ·)
      (((emittedServiceKeys (renderItems p hosts svcs)).filter
          (fun k => k.1 == q)).map Prod.snd) ∧
    (emittedServiceKeys (renderItems p hosts svcs)).Nodup := by
  have hnodup_sorted : ((sortHosts hosts).map Host.hostname).Nodup :=
    ((List.perm_insertionSort _ hosts).map Host.hostname).nodup_iff.mpr hh
  refine ⟨?_, ?_, ?_, ?_⟩
  · rw [emittedHostnames_renderItems]
    have hsorted : List.Sorted (fun a b : Host => a.hostname ≤ b.hostname) (sortHosts hosts) :=
      List.sorted_insertionSort _ _
    exact List.pairwise_map.mpr (hsorted.imp (fun hab => hab))
  · rw [emittedHostnames_renderItems]
    exact hnodup_sorted
  · rw [emittedServiceKeys_renderItems, filter_flatMap_list]
    exact sorted_flatMap_single svcs q (sortHosts hosts) hnodup_sorted
  · rw [emittedServiceKeys_renderItems]
    rw [List.nodup_flatMap]
    constructor
    · intro x _
      exact nodup_svcBlockKeys svcs x.hostname hs
    · have hpw : (sortHosts hosts).Pairwise (fun a b => a.hostname ≠ b.hostname) :=
        List.pairwise_map.mp hnodup_sorted
      refine hpw.imp ?_
      intro a b hab
      intro x hxa hxb
      exact hab ((mem_svcBlockKeys_fst svcs a.hostname x hxa).symm.trans
        (mem_svcBlockKeys_fst svcs b.hostname x hxb))

/-- Witness for C3 on concrete unsorted tables. -/
theorem renderOrdering_nodup_witness :
    List.Sorted (· ≤ ·) (emittedHostnames (renderItems pW hostsW svcsW)) ∧
    (emittedHostnames (renderItems pW hostsW svcsW)).Nodup ∧
    List.Sorted (· ≤ ·)
      (((emittedServiceKeys (renderItems pW hostsW svcsW)).filter
          (fun k => k.1 == "a")).map Prod.snd) ∧
    (emittedServiceKeys (renderItems pW hostsW svcsW)).Nodup :=
  renderOrdering_nodup pW hostsW svcsW "a" (by decide) (by decide)

/-- Claim C4: a service record whose hostname has no host record is
emitted nowhere in the render, yet it survives pruning and is still
returned by the service fetch as long as its own `last_seen` is at or
after the cutoff. -/
theorem orphanService_omitted (p : Params) (hosts : List Host) (svcs : List Service)
    (s : Service) (cutoff : Int)
    (hmem : s ∈ svcs) (horph : s.hostname ∉ hosts.map Host.hostname)
    (hfresh : cutoff ≤ s.lastSeen) :
    (s.hostname, s.serviceDescription) ∉ emittedServiceKeys (renderItems p hosts svcs) ∧
    s ∈ (deleteStaleServices svcs cutoff).1 ∧
    s ∈ getAllServices (deleteStaleServices svcs cutoff).1 := by
  have hsurv : s ∈ (deleteStaleServices svcs cutoff).1 := by
    simp [deleteStaleServices, List.mem_filter, hmem, not_lt, hfresh]
  refine ⟨?_, hsurv, ?_⟩
  · rw [emittedServiceKeys_renderItems]
    intro hmem'
    obtain ⟨h, hh, hk⟩ := List.mem_flatMap.mp hmem'
    have h1 := mem_svcBlockKeys_fst svcs h.hostname _ hk
    have hh' : h ∈ hosts := by
      simpa [sortHosts] using hh
    apply horph
    rw [show s.hostname = h.hostname from h1]
    exact List.mem_map_of_mem Host.hostname hh'
  · simpa [getAllServices] using hsurv

/-- Witness for C4: the orphan service of the sample tables. -/
theorem orphanService_omitted_witness :
    ((Service.mk "orph" "S" 100).hostname, (Service.mk "orph" "S" 100).serviceDescription)
      ∉ emittedServiceKeys (renderItems pW hostsW svcsW) ∧
    Service.mk "orph" "S" 100 ∈ (deleteStaleServices svcsW 40).1 ∧
    Service.mk "orph" "S" 100 ∈ getAllServices (deleteStaleServices svcsW 40).1 :=
  orphanService_omitted pW hostsW svcsW (Service.mk "orph" "S" 100) 40
    (by decide) (by decide) (by decide)

/-- Claim C9: every emitted service definition block uses the configured
service template and a freshness threshold equal to the stale threshold in
whole seconds, and its lines (one per `WriteString` of the source) disable
active checks, enable passive checks, enable the freshness check, and set
a zero notification interval. -/
theorem serviceBlock_passiveFreshness (p : Params) (hosts : List Host) (svcs : List Service)
    (tpl host desc : String) (f : Nat)
    (h : ConfigItem.serviceDef tpl host desc f ∈ renderItems p hosts svcs) :
    tpl = p.serviceTemplate ∧ f = p.staleSecs ∧
    ("    use                     " ++ p.serviceTemplate ++ "\n")
      ∈ serviceLines tpl host desc f ∧
    "    active_checks_enabled   0\n" ∈ serviceLines tpl host desc f ∧
    "    passive_checks_enabled  1\n" ∈ serviceLines tpl host desc f ∧
    "    check_freshness         1\n" ∈ serviceLines tpl host desc f ∧
    ("    freshness_threshold     " ++ toString p.staleSecs ++ "\n")
      ∈ serviceLines tpl host desc f ∧
    "    notification_interval   0\n" ∈ serviceLines tpl host desc f := by
  have key : tpl = p.serviceTemplate ∧ f = p.staleSecs := by
    unfold renderItems at h
    obtain ⟨hh, hmemh, hitem⟩ := List.mem_flatMap.mp h
    rcases List.mem_cons.mp hitem with hc | hc
    · simp at hc
    · obtain ⟨s, hsmem, hs⟩ := List.mem_map.mp hc
      injection hs with h1 h2 h3 h4
      exact ⟨h1.symm, h4.symm⟩
  obtain ⟨h1, h2⟩ := key
  subst h1
  subst h2
  exact ⟨rfl, rfl, by simp [serviceLines], by simp [serviceLines], by simp [serviceLines],
    by simp [serviceLines], by simp [serviceLines], by simp [serviceLines]⟩

/-- Witness for C9 at a concrete one-host render. -/
theorem serviceBlock_passiveFreshness_witness :
    ("generic-service" : String) = pW.serviceTemplate ∧ (60 : Nat) = pW.staleSecs ∧
    ("    use                     " ++ pW.serviceTemplate ++ "\n")
      ∈ serviceLines "generic-service" "web1" "HTTP" 60 ∧
    "    active_checks_enabled   0\n" ∈ serviceLines "generic-service" "web1" "HTTP" 60 ∧
    "    passive_checks_enabled  1\n" ∈ serviceLines "generic-service" "web1" "HTTP" 60 ∧
    "    check_freshness         1\n" ∈ serviceLines "generic-service" "web1" "HTTP" 60 ∧
    ("    freshness_threshold     " ++ toString pW.staleSecs ++ "\n")
      ∈ serviceLines "generic-service" "web1" "HTTP" 60 ∧
    "    notification_interval   0\n" ∈ serviceLines "generic-service" "web1" "HTTP" 60 :=
  serviceBlock_passiveFreshness pW [Host.mk "web1" 100] [Service.mk "web1" "HTTP" 100]
    "generic-service" "web1" "HTTP" 60 (by decide)


end NrdpMicro
